import Mathlib

set_option maxRecDepth 100000

/-!
Shallow embedding of the CHIP-8 interpreter in `src/main.rs` (`chip8-rs`).

Machine integers are modelled as `Nat` with explicit `% 2^w` where the Rust
code wraps (u8 / u16 arithmetic with overflow checks disabled), and a Rust
panic (out-of-bounds array index, u8 underflow in `pop_from_stack`) is
modelled as `none` in `Option`.  Register and memory arrays are Lean lists
of the fixed lengths given by the source constants.
-/

/-- `const V_REGISTERS_NUMBER: usize = 16`. -/
def V_REGISTERS_NUMBER : Nat := 16

/-- `const STACK_SIZE: usize = 16`. -/
def STACK_SIZE : Nat := 16

/-- `const RAM_SIZE: usize = 4096`. -/
def RAM_SIZE : Nat := 4096

/-- `const INITIAL_ADDRESS: u16 = 0x200`. -/
def INITIAL_ADDRESS : Nat := 0x200

/-- Wrapping 8-bit value (`u8` arithmetic with overflow checks disabled). -/
def wrap8 (n : Nat) : Nat := n % 256

/-- Wrapping 16-bit value (`u16` arithmetic with overflow checks disabled). -/
def wrap16 (n : Nat) : Nat := n % 65536

/-- The `Emulator` struct of `src/main.rs`. -/
structure Emulator where
  v_registers : List Nat
  v_f_register : Nat
  i_register : Nat
  program_counter : Nat
  stack_pointer : Nat
  stack : List Nat
  delay_timer_registry : Nat
  sound_timer_registry : Nat
  ram : List Nat
deriving DecidableEq

/-- `emulator.v_registers[x]`.  In the source `x` is always a 4-bit nibble,
so the index is always in bounds of the 16-element array. -/
def getV (e : Emulator) (x : Nat) : Nat := e.v_registers.getD x 0

/-- `emulator.v_registers[x] = v`. -/
def setV (e : Emulator) (x v : Nat) : Emulator :=
  { e with v_registers := e.v_registers.set x v }

/-- `emulator.ram[i]` (a panic on an out-of-bounds index is `none`). -/
def readRam (e : Emulator) (i : Nat) : Option Nat := e.ram.get? i

/-- `emulator.ram[i] = v` (a panic on an out-of-bounds index is `none`;
the in-bounds test `i < e.ram.length` is phrased through `get?` so that
concrete instances evaluate without forcing the whole 4096-cell list). -/
def writeRam (e : Emulator) (i v : Nat) : Option Emulator :=
  match e.ram.get? i with
  | some _ => some { e with ram := e.ram.set i v }
  | none => none

/-- `fn pop_from_stack`.  `stack_pointer -= 1` on `u8` underflows when the
pointer is 0 (debug panic, or release wrap to 255 followed by an
out-of-bounds `stack[255]` panic): both are modelled as `none`.  Otherwise
the slot is read, zeroed, and returned. -/
def pop_from_stack (e : Emulator) : Option (Nat × Emulator) :=
  if e.stack_pointer = 0 then none
  else
    let sp := e.stack_pointer - 1
    if sp < e.stack.length then
      some (e.stack.getD sp 0, { e with stack_pointer := sp, stack := e.stack.set sp 0 })
    else none

/-- `fn push_to_stack`: `stack[sp] = element; sp += 1`; the write panics
(`none`) when the pointer is already at or past the array length. -/
def push_to_stack (e : Emulator) (element : Nat) : Option Emulator :=
  if e.stack_pointer < e.stack.length then
    some { e with stack := e.stack.set e.stack_pointer element,
                  stack_pointer := e.stack_pointer + 1 }
  else none

/-- `ram[start..end].copy_from_slice(data)`, one byte at a time. -/
def copy_from_slice (ram : List Nat) (start : Nat) : List Nat → List Nat
  | [] => ram
  | b :: rest => copy_from_slice (ram.set start b) (start + 1) rest

/-- `fn load_rom_to_memory`: copy the image into RAM at `INITIAL_ADDRESS`. -/
def load_rom_to_memory (e : Emulator) (data : List Nat) : Emulator :=
  { e with ram := copy_from_slice e.ram INITIAL_ADDRESS data }

/-- `fn get_op_code`: big-endian fetch of the two bytes at the program
counter (an out-of-bounds read is `none`). -/
def get_op_code (e : Emulator) : Option Nat := do
  let higher_byte ← e.ram.get? e.program_counter
  let lowe_byte ← e.ram.get? (e.program_counter + 1)
  some ((higher_byte <<< 8) ||| lowe_byte)

/-- `fn parse_op_code`: split the 16-bit word into its four 4-bit nibbles. -/
def parse_op_code (op_code : Nat) : Nat × Nat × Nat × Nat :=
  ((op_code &&& 0xF000) >>> 12, (op_code &&& 0x0F00) >>> 8,
   (op_code &&& 0x00F0) >>> 4, op_code &&& 0x000F)

/-- `fn get_nnn`. -/
def get_nnn : Nat × Nat × Nat × Nat → Nat
  | (_, first, second, third) => ((first <<< 8) ||| (second <<< 4)) ||| third

/-- `fn get_x`. -/
def get_x : Nat × Nat × Nat × Nat → Nat
  | (_, x, _, _) => x

/-- `fn get_kk` (the later `as u8` cast in the callers truncates mod 256). -/
def get_kk : Nat × Nat × Nat × Nat → Nat
  | (_, _, first, second) => (first <<< 4) ||| second

/-- `fn get_y`. -/
def get_y : Nat × Nat × Nat × Nat → Nat
  | (_, _, y, _) => y

/-- `u8::overflowing_add`: wrapped sum and the overflow bit (for 8-bit inputs). -/
def overflowing_add (a b : Nat) : Nat × Bool := ((a + b) % 256, decide (256 ≤ a + b))

/-- `u8::overflowing_sub`: wrapped difference and the borrow bit (for 8-bit inputs). -/
def overflowing_sub (a b : Nat) : Nat × Bool := ((256 + a - b) % 256, decide (a < b))

/-- The `FX55` loop: `for i in 0..=x { ram[i + I] = v_registers[i] }`,
stopping with `none` at the first out-of-bounds write. -/
def store_loop (base : Nat) : List Nat → Emulator → Option Emulator
  | [], e => some e
  | i :: rest, e =>
    match writeRam e (i + base) (getV e i) with
    | some e2 => store_loop base rest e2
    | none => none

/-- The `FX65` loop: `for i in 0..=x { v_registers[i] = ram[i + I] }`,
stopping with `none` at the first out-of-bounds read. -/
def load_loop (base : Nat) : List Nat → Emulator → Option Emulator
  | [], e => some e
  | i :: rest, e =>
    match e.ram.get? (i + base) with
    | some v => load_loop base rest (setV e i v)
    | none => none

/-- The body of the `FX33` arm: decimal-digit decomposition of `vx` into
the three consecutive RAM cells at the address register. -/
def bcd_write (e : Emulator) (vx : Nat) : Option Emulator :=
  let i := e.i_register
  let hundreds := vx / 100
  let tens := (vx / 10) % 10
  let ones := vx % 10
  match writeRam e i hundreds with
  | some e2 =>
    match writeRam e2 (i + 1) tens with
    | some e3 => writeRam e3 (i + 2) ones
    | none => none
  | none => none

/-- `fn execute_op_code`, arm for arm in source order.  The Rust `match`
tries its patterns in order, so it is embedded as the equivalent ordered
chain of guards, each guard testing exactly the literal nibbles of the
corresponding pattern `(a, b, c, d)`.  An `unimplemented!` arm (CLS, DRW,
key input, wait-for-key, unknown opcode) panics and is modelled as `none`;
`rng` is the byte drawn from `rand::thread_rng` in the `CXKK` arm. -/
def execute_op_code (rng : Nat) (e : Emulator) : Nat × Nat × Nat × Nat → Option Emulator
  | (a, b, c, d) =>
  let op_code : Nat × Nat × Nat × Nat := (a, b, c, d)
  -- NOP  (0, 0, 0, 0)
  if a = 0 ∧ b = 0 ∧ c = 0 ∧ d = 0 then some e
  -- CLS  (0, 0, 0xE, 0): unimplemented!
  else if a = 0 ∧ b = 0 ∧ c = 0xE ∧ d = 0 then none
  -- RET  (0, 0, 0xE, 0xE)
  else if a = 0 ∧ b = 0 ∧ c = 0xE ∧ d = 0xE then
    match pop_from_stack e with
    | some (address, e2) => some { e2 with program_counter := address }
    | none => none
  -- JP  (1, _, _, _)
  else if a = 1 then some { e with program_counter := get_nnn op_code }
  -- CALL  (2, _, _, _)
  else if a = 2 then
    match push_to_stack e e.program_counter with
    | some e2 => some { e2 with program_counter := get_nnn op_code }
    | none => none
  -- SKIP if v[x] == kk  (3, _, _, _)
  else if a = 3 then
    let x := get_x op_code
    let kk := wrap8 (get_kk op_code)
    if getV e x = kk then
      some { e with program_counter := wrap16 (e.program_counter + 2) }
    else some e
  -- SKIP if v[x] != kk  (4, _, _, _)
  else if a = 4 then
    let x := get_x op_code
    let kk := wrap8 (get_kk op_code)
    if getV e x ≠ kk then
      some { e with program_counter := wrap16 (e.program_counter + 2) }
    else some e
  -- SKIP if v[x] == v[y]  (5, _, _, 0)
  else if a = 5 ∧ d = 0 then
    let x := get_x op_code
    let y := get_y op_code
    if getV e x = getV e y then
      some { e with program_counter := wrap16 (e.program_counter + 2) }
    else some e
  -- PUT kk in v[x]  (6, _, _, _)
  else if a = 6 then some (setV e (get_x op_code) (wrap8 (get_kk op_code)))
  -- ADD v[x] + kk  (7, _, _, _), wrapping `+=` on u8
  else if a = 7 then
    let x := get_x op_code
    let kk := wrap8 (get_kk op_code)
    some (setV e x (wrap8 (getV e x + kk)))
  -- SET v[x] = v[y]  (8, _, _, 0)
  else if a = 8 ∧ d = 0 then
    some (setV e (get_x op_code) (getV e (get_y op_code)))
  -- OR  (8, _, _, 1)
  else if a = 8 ∧ d = 1 then
    some (setV e (get_x op_code) (getV e (get_x op_code) ||| getV e (get_y op_code)))
  -- AND  (8, _, _, 2)
  else if a = 8 ∧ d = 2 then
    some (setV e (get_x op_code) (getV e (get_x op_code) &&& getV e (get_y op_code)))
  -- XOR  (8, _, _, 3)
  else if a = 8 ∧ d = 3 then
    some (setV e (get_x op_code) (getV e (get_x op_code) ^^^ getV e (get_y op_code)))
  -- ADD v[x] + v[y]  (8, _, _, 4)
  else if a = 8 ∧ d = 4 then
    let x := get_x op_code
    let y := get_y op_code
    let vx := getV e x
    let vy := getV e y
    let sum := (overflowing_add vx vy).1
    let overflow := (overflowing_add vx vy).2
    let e2 := setV e x sum
    some (if overflow then setV e2 0xF 1 else e2)
  -- SUB v[x] - v[y]  (8, _, _, 5)
  else if a = 8 ∧ d = 5 then
    let x := get_x op_code
    let y := get_y op_code
    let vx := getV e x
    let vy := getV e y
    let sub := (overflowing_sub vx vy).1
    let borrow := (overflowing_sub vx vy).2
    let e2 := setV e x sub
    some (if borrow then setV e2 0xF 1 else e2)
  -- SHR v[x] >> 1  (8, _, _, 6)
  else if a = 8 ∧ d = 6 then
    let x := get_x op_code
    let lsb := getV e x &&& 1
    let e2 := setV e x (getV e x >>> 1)
    some (setV e2 0xF lsb)
  -- SUB v[x] = v[y] - v[x]  (8, _, _, 7)
  else if a = 8 ∧ d = 7 then
    let x := get_x op_code
    let y := get_y op_code
    let vx := getV e x
    let vy := getV e y
    let sub := (overflowing_sub vy vx).1
    let borrow := (overflowing_sub vy vx).2
    let e2 := setV e x sub
    some (if borrow then setV e2 0xF 1 else e2)
  -- SHL v[x] << 1  (8, _, _, 0xE)
  else if a = 8 ∧ d = 0xE then
    let x := get_x op_code
    let msb := (getV e x >>> 7) &&& 0xF0
    let e2 := setV e x (wrap8 (getV e x <<< 1))
    some (setV e2 0xF msb)
  -- SNE  (9, _, _, 0)
  else if a = 9 ∧ d = 0 then
    let x := get_x op_code
    let y := get_y op_code
    if getV e x ≠ getV e y then
      some { e with program_counter := wrap16 (e.program_counter + 2) }
    else some e
  -- SET vi = nnn  (0xA, _, _, _)
  else if a = 0xA then some { e with i_register := get_nnn op_code }
  -- JP V0 + nnn  (0xB, _, _, _)
  else if a = 0xB then
    some { e with program_counter := getV e 0 + get_nnn op_code }
  -- RND Vx & kk  (0xC, _, _, _)
  else if a = 0xC then
    some (setV e (get_x op_code) (wrap8 rng &&& wrap8 (get_kk op_code)))
  -- Draw  (0xD, _, _, _): unimplemented!
  else if a = 0xD then none
  -- SKIP if Vx is pressed  (0xE, _, 9, 0xE): unimplemented!
  else if a = 0xE ∧ c = 9 ∧ d = 0xE then none
  -- SKIP if Vx is not pressed  (0xE, _, 0xA, 1): unimplemented!
  else if a = 0xE ∧ c = 0xA ∧ d = 1 then none
  -- SET Vx to delay  (0xF, _, 0, 7)
  else if a = 0xF ∧ c = 0 ∧ d = 7 then
    some (setV e (get_x op_code) (wrap8 e.delay_timer_registry))
  -- Wait for key press  (0xF, _, 0, 0xA): unimplemented!
  else if a = 0xF ∧ c = 0 ∧ d = 0xA then none
  -- Set DT to Vx  (0xF, _, 1, 5)
  else if a = 0xF ∧ c = 1 ∧ d = 5 then
    some { e with delay_timer_registry := getV e (get_x op_code) }
  -- Set ST to Vx  (0xF, _, 1, 8)
  else if a = 0xF ∧ c = 1 ∧ d = 8 then
    some { e with sound_timer_registry := getV e (get_x op_code) }
  -- Set I = I + Vx  (0xF, _, 1, 0xE), wrapping_add on u16
  else if a = 0xF ∧ c = 1 ∧ d = 0xE then
    some { e with i_register := wrap16 (e.i_register + getV e (get_x op_code)) }
  -- Set BCD = Vx in I address  (0xF, _, 3, 3)
  else if a = 0xF ∧ c = 3 ∧ d = 3 then
    bcd_write e (getV e (get_x op_code))
  -- Store registers in memory  (0xF, _, 5, 5)
  else if a = 0xF ∧ c = 5 ∧ d = 5 then
    store_loop e.i_register (List.range (get_x op_code + 1)) e
  -- Loads memory into registers  (0xF, _, 6, 5)
  else if a = 0xF ∧ c = 6 ∧ d = 5 then
    load_loop e.i_register (List.range (get_x op_code + 1)) e
  -- (_, _, _, _): unimplemented!
  else none

/-- The all-zero start state built in `fn main`, before the program image
is loaded. -/
def initial_emulator : Emulator :=
  { v_registers := List.replicate V_REGISTERS_NUMBER 0
  , v_f_register := 0
  , i_register := 0
  , program_counter := INITIAL_ADDRESS
  , stack_pointer := 0
  , stack := List.replicate STACK_SIZE 0
  , delay_timer_registry := 0
  , sound_timer_registry := 0
  , ram := List.replicate RAM_SIZE 0 }

/-- Modelled from the spec: the source's `fn main` leaves the
fetch-decode-execute loop as a TODO, and the spec fixes its default
behavior: "advance program counter by 2 (one instruction word)" before
dispatch.  `advance` is that pre-dispatch step. -/
def advance (e : Emulator) : Emulator :=
  { e with program_counter := wrap16 (e.program_counter + 2) }

/-- Modelled from the spec: one iteration of the missing
fetch-decode-execute loop — fetch at the program counter, advance the
program counter by 2, decode, execute. -/
def step (rng : Nat) (e : Emulator) : Option Emulator :=
  match get_op_code e with
  | some w => execute_op_code rng (advance e) (parse_op_code w)
  | none => none

/-- The decoded-instruction classes that redirect the program counter
(jump `1NNN`/`BNNN`, call `2NNN`, return `00EE`, the four conditional
skips `3XKK`/`4XKK`/`5XY0`/`9XY0`). -/
def is_control_flow (op_code : Nat × Nat × Nat × Nat) : Bool :=
  let (a, b, c, d) := op_code
  (a == 0 && b == 0 && c == 0xE && d == 0xE) ||
    a == 1 || a == 2 || a == 3 || a == 4 ||
    (a == 5 && d == 0) || (a == 9 && d == 0) || a == 0xB


theorem writeRam_fields (e : Emulator) (i v : Nat) (e2 : Emulator)
    (h : writeRam e i v = some e2) :
    e2.v_registers = e.v_registers ∧ e2.v_f_register = e.v_f_register ∧
    e2.i_register = e.i_register ∧ e2.program_counter = e.program_counter ∧
    e2.stack_pointer = e.stack_pointer ∧ e2.stack = e.stack ∧
    e2.delay_timer_registry = e.delay_timer_registry ∧
    e2.sound_timer_registry = e.sound_timer_registry ∧
    e2.ram.length = e.ram.length := by
  unfold writeRam at h
  cases hw : e.ram.get? i with
  | none => rw [hw] at h; exact Option.noConfusion h
  | some u =>
    rw [hw] at h
    injection h with h
    subst h
    refine ⟨rfl, rfl, rfl, rfl, rfl, rfl, rfl, rfl, ?_⟩
    simp

theorem bcd_write_fields (e : Emulator) (vx : Nat) (e' : Emulator)
    (h : bcd_write e vx = some e') :
    e'.v_registers = e.v_registers ∧ e'.v_f_register = e.v_f_register ∧
    e'.i_register = e.i_register ∧ e'.program_counter = e.program_counter ∧
    e'.stack_pointer = e.stack_pointer ∧ e'.stack = e.stack ∧
    e'.delay_timer_registry = e.delay_timer_registry ∧
    e'.sound_timer_registry = e.sound_timer_registry ∧
    e'.ram.length = e.ram.length := by
  unfold bcd_write at h
  simp only [] at h
  rcases h1 : writeRam e e.i_register (vx / 100) with _ | e2
  · rw [h1] at h; exact Option.noConfusion h
  · rw [h1] at h
    simp only [] at h
    rcases h2 : writeRam e2 (e.i_register + 1) (vx / 10 % 10) with _ | e3
    · rw [h2] at h; exact Option.noConfusion h
    · rw [h2] at h
      simp only [] at h
      obtain ⟨w1, w2, w3, w4, w5, w6, w7, w8, w9⟩ := writeRam_fields _ _ _ _ h1
      obtain ⟨x1, x2, x3, x4, x5, x6, x7, x8, x9⟩ := writeRam_fields _ _ _ _ h2
      obtain ⟨y1, y2, y3, y4, y5, y6, y7, y8, y9⟩ := writeRam_fields _ _ _ _ h
      exact ⟨by rw [y1, x1, w1], by rw [y2, x2, w2], by rw [y3, x3, w3],
        by rw [y4, x4, w4], by rw [y5, x5, w5], by rw [y6, x6, w6],
        by rw [y7, x7, w7], by rw [y8, x8, w8], by rw [y9, x9, w9]⟩

theorem store_loop_fields (base : Nat) (l : List Nat) (e e' : Emulator)
    (h : store_loop base l e = some e') :
    e'.v_registers = e.v_registers ∧ e'.v_f_register = e.v_f_register ∧
    e'.i_register = e.i_register ∧ e'.program_counter = e.program_counter ∧
    e'.stack_pointer = e.stack_pointer ∧ e'.stack = e.stack ∧
    e'.delay_timer_registry = e.delay_timer_registry ∧
    e'.sound_timer_registry = e.sound_timer_registry ∧
    e'.ram.length = e.ram.length := by
  induction l generalizing e with
  | nil =>
    unfold store_loop at h
    injection h with h
    subst h
    exact ⟨rfl, rfl, rfl, rfl, rfl, rfl, rfl, rfl, rfl⟩
  | cons i rest ih =>
    unfold store_loop at h
    cases hw : writeRam e (i + base) (getV e i) with
    | none => rw [hw] at h; exact Option.noConfusion h
    | some e2 =>
      rw [hw] at h
      obtain ⟨w1, w2, w3, w4, w5, w6, w7, w8, w9⟩ := writeRam_fields _ _ _ _ hw
      obtain ⟨s1, s2, s3, s4, s5, s6, s7, s8, s9⟩ := ih e2 h
      exact ⟨by rw [s1, w1], by rw [s2, w2], by rw [s3, w3], by rw [s4, w4],
        by rw [s5, w5], by rw [s6, w6], by rw [s7, w7], by rw [s8, w8], by rw [s9, w9]⟩

theorem load_loop_fields (base : Nat) (l : List Nat) (e e' : Emulator)
    (h : load_loop base l e = some e') :
    e'.v_f_register = e.v_f_register ∧ e'.i_register = e.i_register ∧
    e'.program_counter = e.program_counter ∧ e'.stack_pointer = e.stack_pointer ∧
    e'.stack = e.stack ∧ e'.delay_timer_registry = e.delay_timer_registry ∧
    e'.sound_timer_registry = e.sound_timer_registry ∧ e'.ram = e.ram := by
  induction l generalizing e with
  | nil =>
    unfold load_loop at h
    injection h with h
    subst h
    exact ⟨rfl, rfl, rfl, rfl, rfl, rfl, rfl, rfl⟩
  | cons i rest ih =>
    unfold load_loop at h
    cases hw : e.ram.get? (i + base) with
    | none => rw [hw] at h; exact Option.noConfusion h
    | some v =>
      rw [hw] at h
      exact ih (setV e i v) h

theorem execute_pc_preserved (rng : Nat) (e : Emulator) (a b c d : Nat)
    (e' : Emulator) (ha : a < 16) (hcf : is_control_flow (a, b, c, d) = false)
    (hx : execute_op_code rng e (a, b, c, d) = some e') :
    e'.program_counter = e.program_counter := by
  interval_cases a
  · -- a = 0
    by_cases h1 : b = 0 ∧ c = 0 ∧ d = 0
    · obtain ⟨hb, hc, hd⟩ := h1
      subst hb; subst hc; subst hd
      injection hx with hx
      subst hx
      rfl
    · by_cases h2 : b = 0 ∧ c = 14 ∧ d = 0
      · obtain ⟨hb, hc, hd⟩ := h2
        subst hb; subst hc; subst hd
        exact Option.noConfusion hx
      · by_cases h3 : b = 0 ∧ c = 14 ∧ d = 14
        · exact absurd hcf (by simp [is_control_flow, h3.1, h3.2.1, h3.2.2])
        · simp only [execute_op_code] at hx
          rw [if_neg (by simpa using h1), if_neg (by simpa using h2),
            if_neg (by simpa using h3)] at hx
          norm_num at hx
          exact Option.noConfusion hx
  · -- a = 1: jump, control flow
    exact Bool.noConfusion (show true = false from hcf)
  · -- a = 2: call, control flow
    exact Bool.noConfusion (show true = false from hcf)
  · -- a = 3: skip, control flow
    exact Bool.noConfusion (show true = false from hcf)
  · -- a = 4: skip, control flow
    exact Bool.noConfusion (show true = false from hcf)
  · -- a = 5
    rcases d with _ | d
    · exact Bool.noConfusion (show true = false from hcf)
    · exact Option.noConfusion hx
  · -- a = 6
    injection hx with hx; subst hx; rfl
  · -- a = 7
    injection hx with hx; subst hx; rfl
  · -- a = 8
    rcases d with _|_|_|_|_|_|_|_|_|_|_|_|_|_|_|d <;>
      first
        | exact Option.noConfusion hx
        | (injection hx with hx; subst hx; first | rfl | (split <;> rfl))
  · -- a = 9
    rcases d with _ | d
    · exact Bool.noConfusion (show true = false from hcf)
    · exact Option.noConfusion hx
  · -- a = 0xA
    injection hx with hx; subst hx; rfl
  · -- a = 0xB: jump, control flow
    exact Bool.noConfusion (show true = false from hcf)
  · -- a = 0xC
    injection hx with hx; subst hx; rfl
  · -- a = 0xD
    exact Option.noConfusion hx
  · -- a = 0xE
    rcases c with _|_|_|_|_|_|_|_|_|_|_|c <;>
      try (exact Option.noConfusion hx)
    · rcases d with _|_|_|_|_|_|_|_|_|_|_|_|_|_|_|d <;> exact Option.noConfusion hx
    · rcases d with _|_|d <;> exact Option.noConfusion hx
  · -- a = 0xF
    rcases c with _|_|_|_|_|_|_|c
    · -- c = 0
      rcases d with _|_|_|_|_|_|_|_|_|_|_|d <;>
        first
          | exact Option.noConfusion hx
          | (injection hx with hx; subst hx; rfl)
    · -- c = 1
      rcases d with _|_|_|_|_|_|_|_|_|_|_|_|_|_|_|d <;>
        first
          | exact Option.noConfusion hx
          | (injection hx with hx; subst hx; rfl)
    · -- c = 2
      exact Option.noConfusion hx
    · -- c = 3
      rcases d with _|_|_|_|d
      · exact Option.noConfusion hx
      · exact Option.noConfusion hx
      · exact Option.noConfusion hx
      · exact (bcd_write_fields _ _ _ hx).2.2.2.1
      · exact Option.noConfusion hx
    · -- c = 4
      exact Option.noConfusion hx
    · -- c = 5
      rcases d with _|_|_|_|_|_|d
      all_goals try (exact Option.noConfusion hx)
      exact (store_loop_fields _ _ _ _ hx).2.2.2.1
    · -- c = 6
      rcases d with _|_|_|_|_|_|d
      all_goals try (exact Option.noConfusion hx)
      exact (load_loop_fields _ _ _ _ hx).2.2.1
    · -- c ≥ 7
      exact Option.noConfusion hx

theorem and_mask_shiftRight (w k n : Nat) :
    (w &&& ((2 ^ n - 1) <<< k)) >>> k = (w >>> k) % 2 ^ n := by
  apply Nat.eq_of_testBit_eq
  intro i
  simp [Nat.testBit_shiftRight, Nat.testBit_and, Nat.testBit_shiftLeft,
        Nat.testBit_two_pow_sub_one, Nat.testBit_mod_two_pow,
        Nat.le_add_right, Nat.add_sub_cancel_left, Bool.and_comm]

theorem parse_op_code_eq (w : Nat) :
    parse_op_code w = (w / 4096 % 16, w / 256 % 16, w / 16 % 16, w % 16) := by
  have h12 := and_mask_shiftRight w 12 4
  have h8 := and_mask_shiftRight w 8 4
  have h4 := and_mask_shiftRight w 4 4
  have h0 := Nat.and_pow_two_sub_one_eq_mod w 4
  norm_num [Nat.shiftLeft_eq, Nat.shiftRight_eq_div_pow] at h12 h8 h4 h0
  simp [parse_op_code, Nat.shiftRight_eq_div_pow] at h12 h8 h4 h0 ⊢
  exact ⟨h12, h8, h4, h0⟩

theorem nibble_or_recombine (w : Nat) (h : w < 65536) :
    ((((w / 4096 % 16) <<< 12) ||| ((w / 256 % 16) <<< 8)) |||
      ((w / 16 % 16) <<< 4)) ||| (w % 16) = w := by
  apply Nat.eq_of_testBit_eq
  intro i
  rcases lt_or_ge i 16 with hi | hi
  · rw [Bool.eq_iff_iff]
    interval_cases i <;>
      · simp only [Nat.testBit_or]
        simp only [Nat.testBit_shiftLeft, Nat.testBit_to_div_mod,
          Bool.or_eq_true, Bool.and_eq_true, decide_eq_true_eq, ge_iff_le]
        norm_num
        all_goals omega
  · have tb : ∀ (x k : Nat), x < 16 → 4 ≤ k → x.testBit k = false := by
      intro x k hx hk
      refine Nat.testBit_lt_two_pow (lt_of_lt_of_le hx ?_)
      calc (16 : Nat) = 2 ^ 4 := by norm_num
        _ ≤ 2 ^ k := Nat.pow_le_pow_right (by norm_num) hk
    have h16 : w < 2 ^ 16 := by
      calc w < 65536 := h
        _ = 2 ^ 16 := by norm_num
    have hw : w.testBit i = false :=
      Nat.testBit_lt_two_pow (lt_of_lt_of_le h16 (Nat.pow_le_pow_right (by norm_num) hi))
    have t1 : (w / 4096 % 16).testBit (i - 12) = false :=
      tb _ _ (Nat.mod_lt _ (by norm_num)) (by omega)
    have t2 : (w / 256 % 16).testBit (i - 8) = false :=
      tb _ _ (Nat.mod_lt _ (by norm_num)) (by omega)
    have t3 : (w / 16 % 16).testBit (i - 4) = false :=
      tb _ _ (Nat.mod_lt _ (by norm_num)) (by omega)
    have t4 : (w % 16).testBit i = false :=
      tb _ _ (Nat.mod_lt _ (by norm_num)) (by omega)
    simp only [Nat.testBit_or, Nat.testBit_shiftLeft, t1, t2, t3, t4, hw,
      Bool.and_false, Bool.or_false, Bool.or_self]

/-- C9: the decoder `parse_op_code` is a pure total function of the 16-bit
instruction word: each of the four 4-bit nibble fields it extracts lies in
[0, 15], and recombining the fields as
`(n1 <<< 12) ||| (n2 <<< 8) ||| (n3 <<< 4) ||| n4` yields back the original
word; it has no error path. -/
theorem parse_op_code_nibbles_roundtrip (w : Nat) (h : w < 65536) :
    (parse_op_code w).1 < 16 ∧ (parse_op_code w).2.1 < 16 ∧
    (parse_op_code w).2.2.1 < 16 ∧ (parse_op_code w).2.2.2 < 16 ∧
    ((((parse_op_code w).1 <<< 12) ||| ((parse_op_code w).2.1 <<< 8)) |||
      ((parse_op_code w).2.2.1 <<< 4)) ||| (parse_op_code w).2.2.2 = w := by
  rw [parse_op_code_eq]
  exact ⟨Nat.mod_lt _ (by norm_num), Nat.mod_lt _ (by norm_num),
    Nat.mod_lt _ (by norm_num), Nat.mod_lt _ (by norm_num), nibble_or_recombine w h⟩

/-- Witness for C9 at the concrete word 0xABCD. -/
theorem parse_op_code_nibbles_roundtrip_witness :
    (parse_op_code 0xABCD).1 < 16 ∧ (parse_op_code 0xABCD).2.1 < 16 ∧
    (parse_op_code 0xABCD).2.2.1 < 16 ∧ (parse_op_code 0xABCD).2.2.2 < 16 ∧
    ((((parse_op_code 0xABCD).1 <<< 12) ||| ((parse_op_code 0xABCD).2.1 <<< 8)) |||
      ((parse_op_code 0xABCD).2.2.1 <<< 4)) ||| (parse_op_code 0xABCD).2.2.2 = 0xABCD :=
  parse_op_code_nibbles_roundtrip 0xABCD (by norm_num)

/-- C10: the bulk register store `FX55` leaves the address register `I` and
all registers unchanged, and the bulk register load `FX65` leaves `I` and
all of memory unchanged (no post-increment of `I` in either). -/
theorem bulk_transfer_frame (rng x : Nat) (e e' : Emulator) :
    (execute_op_code rng e (0xF, x, 5, 5) = some e' →
      e'.i_register = e.i_register ∧ e'.v_registers = e.v_registers) ∧
    (execute_op_code rng e (0xF, x, 6, 5) = some e' →
      e'.i_register = e.i_register ∧ e'.ram = e.ram) := by
  constructor
  · intro h
    exact ⟨(store_loop_fields _ _ _ _ h).2.2.1, (store_loop_fields _ _ _ _ h).1⟩
  · intro h
    exact ⟨(load_loop_fields _ _ _ _ h).2.1,
      (load_loop_fields _ _ _ _ h).2.2.2.2.2.2.2⟩

/-- Witness for C10 at a concrete state: `F055` and `F065` executed on the
all-zero machine. -/
theorem bulk_transfer_frame_witness :
    (execute_op_code 0 initial_emulator (0xF, 0, 5, 5)).map
        (fun e1 => (e1.i_register, e1.v_registers)) =
      some (initial_emulator.i_register, initial_emulator.v_registers) ∧
    (execute_op_code 0 initial_emulator (0xF, 0, 6, 5)).map
        (fun e1 => (e1.i_register, e1.ram)) =
      some (initial_emulator.i_register, initial_emulator.ram) := by
  constructor
  · rcases h : execute_op_code 0 initial_emulator (0xF, 0, 5, 5) with _ | e1
    · exact absurd h (by decide)
    · have h2 := (bulk_transfer_frame 0 0 initial_emulator e1).1 h
      simp [Option.map, h2.1, h2.2]
  · rcases h : execute_op_code 0 initial_emulator (0xF, 0, 6, 5) with _ | e1
    · exact absurd h (by decide)
    · have h2 := (bulk_transfer_frame 0 0 initial_emulator e1).2 h
      simp [Option.map, h2.1, h2.2]

/-- C4: with the spec-modelled fetch-decode-execute step, every
successfully executed instruction whose decoded class is not a
control-flow class (jump, call, return, conditional skip) leaves the
program counter exactly 2 past its pre-fetch value; and the three-step
scenario `0x600A 0x6105 0x8014` from the all-zero start state ends with
V0 = 15, flag register V[F] = 0, and the program counter advanced by 6
from the start address. -/
theorem default_pc_advance_and_scenario :
    (∀ (rng : Nat) (e e' : Emulator) (w : Nat), get_op_code e = some w →
        is_control_flow (parse_op_code w) = false →
        step rng e = some e' →
        e'.program_counter = wrap16 (e.program_counter + 2)) ∧
    ((((step 0 (load_rom_to_memory initial_emulator
          [0x60, 0x0A, 0x61, 0x05, 0x80, 0x14])).bind (step 0)).bind (step 0)).map
        (fun e3 => (getV e3 0, getV e3 0xF, e3.program_counter)) =
      some (15, 0, INITIAL_ADDRESS + 6)) := by
  constructor
  · intro rng e e' w hw hcf hstep
    unfold step at hstep
    rw [hw] at hstep
    simp only [] at hstep
    have hlt : (parse_op_code w).1 < 16 := by
      rw [parse_op_code_eq]
      exact Nat.mod_lt _ (by norm_num)
    rcases hp : parse_op_code w with ⟨p1, p2, p3, p4⟩
    rw [hp] at hstep hcf hlt
    have hpc := execute_pc_preserved rng (advance e) p1 p2 p3 p4 e' hlt hcf hstep
    rw [hpc]
    rfl
  · decide

/-- Witness for C4: one step of the load-immediate instruction `0x600A`
(not a control-flow class) advances the program counter by exactly 2. -/
theorem default_pc_advance_witness :
    (step 0 (load_rom_to_memory initial_emulator [0x60, 0x0A])).map
        (fun e1 => e1.program_counter) =
      some (wrap16 (INITIAL_ADDRESS + 2)) := by
  rcases h : step 0 (load_rom_to_memory initial_emulator [0x60, 0x0A]) with _ | e1
  · exact absurd h (by decide)
  · have h2 := default_pc_advance_and_scenario.1 0
      (load_rom_to_memory initial_emulator [0x60, 0x0A]) e1 0x600A
      (by decide) (by decide) h
    have hpc : e1.program_counter = wrap16 (INITIAL_ADDRESS + 2) := h2
    simp [hpc]

theorem getD_set_self (l : List Nat) (i v : Nat) (h : i < l.length) :
    (l.set i v).getD i 0 = v := by
  rw [List.getD_eq_getElem?_getD, List.getElem?_set_self h]
  rfl

/-- C5: with the spec-modelled pre-dispatch advance, the call `2NNN`
pushes the address of the instruction after the call onto the stack (for
every state of stack depth at most 15, i.e. nesting depth up to 16), and
an immediately following `00EE` return restores the program counter to
exactly that address. -/
theorem call_then_ret (rng1 rng2 b c d : Nat) (e : Emulator)
    (hsp : e.stack_pointer ≤ 15) (hlen : e.stack.length = 16)
    (hpc : e.program_counter + 2 < 65536) :
    ∃ e1, execute_op_code rng1 (advance e) (2, b, c, d) = some e1 ∧
      e1.stack.getD e.stack_pointer 0 = e.program_counter + 2 ∧
      e1.stack_pointer = e.stack_pointer + 1 ∧
      e1.program_counter = get_nnn (2, b, c, d) ∧
      ∃ e2, execute_op_code rng2 (advance e1) (0, 0, 0xE, 0xE) = some e2 ∧
        e2.program_counter = e.program_counter + 2 := by
  have hadv : advance e = { e with program_counter := e.program_counter + 2 } := by
    unfold advance wrap16
    rw [Nat.mod_eq_of_lt hpc]
  have hsplen : e.stack_pointer < e.stack.length := by omega
  have hpush : push_to_stack ({ e with program_counter := e.program_counter + 2 })
      ({ e with program_counter := e.program_counter + 2 } : Emulator).program_counter =
      some { e with
        program_counter := e.program_counter + 2
        stack := e.stack.set e.stack_pointer (e.program_counter + 2)
        stack_pointer := e.stack_pointer + 1 } := by
    unfold push_to_stack
    rw [if_pos hsplen]
  have hexec1 : execute_op_code rng1 (advance e) (2, b, c, d) =
      some { e with
        program_counter := get_nnn (2, b, c, d)
        stack := e.stack.set e.stack_pointer (e.program_counter + 2)
        stack_pointer := e.stack_pointer + 1 } := by
    rw [hadv]
    show (match push_to_stack ({ e with program_counter := e.program_counter + 2 })
        ({ e with program_counter := e.program_counter + 2 } : Emulator).program_counter with
      | some e2 => some { e2 with program_counter := get_nnn (2, b, c, d) }
      | none => none) = _
    rw [hpush]
  refine ⟨_, hexec1, ?_, rfl, rfl, ?_⟩
  · exact getD_set_self _ _ _ hsplen
  · have hlen2 : e.stack_pointer + 1 - 1 <
        (e.stack.set e.stack_pointer (e.program_counter + 2)).length := by
      rw [List.length_set]
      omega
    have hpop : pop_from_stack { e with
        program_counter := wrap16 (get_nnn (2, b, c, d) + 2)
        stack := e.stack.set e.stack_pointer (e.program_counter + 2)
        stack_pointer := e.stack_pointer + 1 } =
        some ((e.stack.set e.stack_pointer (e.program_counter + 2)).getD e.stack_pointer 0,
          { e with
            program_counter := wrap16 (get_nnn (2, b, c, d) + 2)
            stack := (e.stack.set e.stack_pointer (e.program_counter + 2)).set
              e.stack_pointer 0
            stack_pointer := e.stack_pointer }) := by
      unfold pop_from_stack
      rw [if_neg (by exact Nat.succ_ne_zero e.stack_pointer)]
      simp only []
      rw [if_pos hlen2]
      rfl
    refine ⟨{ e with
        program_counter :=
          (e.stack.set e.stack_pointer (e.program_counter + 2)).getD e.stack_pointer 0
        stack := (e.stack.set e.stack_pointer (e.program_counter + 2)).set e.stack_pointer 0
        stack_pointer := e.stack_pointer }, ?_, ?_⟩
    · show (match pop_from_stack { e with
          program_counter := wrap16 (get_nnn (2, b, c, d) + 2)
          stack := e.stack.set e.stack_pointer (e.program_counter + 2)
          stack_pointer := e.stack_pointer + 1 } with
        | some (address, e2) => some { e2 with program_counter := address }
        | none => none) = _
      rw [hpop]
    · show (e.stack.set e.stack_pointer (e.program_counter + 2)).getD e.stack_pointer 0 =
        e.program_counter + 2
      exact getD_set_self _ _ _ hsplen

/-- Witness for C5: call `0x2300` then return, from the all-zero start
state (stack depth 0, program counter 0x200). -/
theorem call_then_ret_witness :
    ((execute_op_code 0 (advance initial_emulator) (2, 3, 0, 0)).bind
        (fun e1 => execute_op_code 0 (advance e1) (0, 0, 0xE, 0xE))).map
        (fun e2 => e2.program_counter) =
      some (initial_emulator.program_counter + 2) := by
  obtain ⟨e1, he1, hst, hsp, hpc1, e2, he2, hpc2⟩ :=
    call_then_ret 0 0 3 0 0 initial_emulator (by decide) (by decide) (by decide)
  rw [he1]
  simp only [Option.bind]
  rw [he2]
  simp [hpc2]

/-- Counterexample to C6 as stated: at the very inputs the claim
describes — a 17th nested call (stack pointer already 16) and a return on
an empty stack — the code produces no error value at all: both are
unchecked faults (a u8 underflow / out-of-bounds index panic, modelled as
`none`), so the failure is not a returned `StackOverflow` /
`StackUnderflow` value. -/
theorem stack_error_counterexample :
    execute_op_code 0 { initial_emulator with stack_pointer := 16 } (2, 0, 0, 0) = none ∧
    execute_op_code 0 initial_emulator (0, 0, 0xE, 0xE) = none := by decide

/-- C6 amended: a push beyond the 16-slot capacity (in particular the 17th
nested call) and a pop from an empty stack (a return with an empty stack)
are unchecked faults — panics, modelled as `none` — rather than returned
error values. -/
theorem stack_fault_on_overflow_underflow (rng b c d v : Nat) (e : Emulator)
    (hlen : e.stack.length = 16) :
    (16 ≤ e.stack_pointer →
      push_to_stack e v = none ∧ execute_op_code rng e (2, b, c, d) = none) ∧
    (e.stack_pointer = 0 →
      pop_from_stack e = none ∧ execute_op_code rng e (0, 0, 0xE, 0xE) = none) := by
  constructor
  · intro hsp
    have hpush : ∀ u, push_to_stack e u = none := by
      intro u
      unfold push_to_stack
      rw [if_neg (by omega)]
    refine ⟨hpush v, ?_⟩
    show (match push_to_stack e e.program_counter with
      | some e2 => some ({ e2 with program_counter := get_nnn (2, b, c, d) } : Emulator)
      | none => none) = none
    rw [hpush e.program_counter]
  · intro hsp
    have hpop : pop_from_stack e = none := by
      unfold pop_from_stack
      rw [if_pos hsp]
    refine ⟨hpop, ?_⟩
    show (match pop_from_stack e with
      | some (address, e2) => some ({ e2 with program_counter := address } : Emulator)
      | none => none) = none
    rw [hpop]

/-- Witness for C6 (amended) at concrete states: the full-stack machine
for the overflow half, the all-zero machine for the underflow half. -/
theorem stack_fault_witness :
    (push_to_stack { initial_emulator with stack_pointer := 16 } 0 = none ∧
      execute_op_code 0 { initial_emulator with stack_pointer := 16 } (2, 0, 0, 0) = none) ∧
    (pop_from_stack initial_emulator = none ∧
      execute_op_code 0 initial_emulator (0, 0, 0xE, 0xE) = none) := by
  constructor
  · exact (stack_fault_on_overflow_underflow 0 0 0 0 0
      { initial_emulator with stack_pointer := 16 } (by decide)).1 (by decide)
  · exact (stack_fault_on_overflow_underflow 0 0 0 0 0
      initial_emulator (by decide)).2 (by decide)

/-- Counterexample to C7 as stated: for register index x = 15 the
add-immediate `7F01` writes its result into V[15], which IS the flag
register, so the flag register does not stay unchanged (it goes from 0 to
1 on the all-zero machine). -/
theorem add_immediate_flag_counterexample :
    (execute_op_code 0 initial_emulator (7, 0xF, 0, 1)).map (fun e2 => getV e2 0xF) =
      some 1 ∧ getV initial_emulator 0xF = 0 := by decide

/-- C7 amended: `7XKK` stores (V[x] + kk) mod 256 into V[x] — wrapping,
total, no fault — and leaves the flag register V[15] unchanged for every
x ≠ 15; for x = 15 the operand write itself targets the flag storage. -/
theorem add_immediate_wrapping (rng x k1 k2 : Nat) (e : Emulator)
    (hx : x < 16) (hk1 : k1 < 16) (hk2 : k2 < 16)
    (hlen : e.v_registers.length = 16) :
    ∃ e', execute_op_code rng e (7, x, k1, k2) = some e' ∧
      getV e' x = (getV e x + get_kk (7, x, k1, k2)) % 256 ∧
      (x ≠ 0xF → getV e' 0xF = getV e 0xF) := by
  have hkk : get_kk (7, x, k1, k2) < 256 := by
    show (k1 <<< 4) ||| k2 < 256
    have h1 : k1 <<< 4 < 256 := by
      rw [Nat.shiftLeft_eq]
      omega
    have h2 : (k1 <<< 4) ||| k2 < 2 ^ 8 := Nat.or_lt_two_pow (by norm_num; omega) (by norm_num; omega)
    norm_num at h2
    exact h2
  have hwrap : wrap8 (get_kk (7, x, k1, k2)) = get_kk (7, x, k1, k2) :=
    Nat.mod_eq_of_lt hkk
  refine ⟨setV e x (wrap8 (getV e x + wrap8 (get_kk (7, x, k1, k2)))), rfl, ?_, ?_⟩
  · show (e.v_registers.set x (wrap8 (getV e x + wrap8 (get_kk (7, x, k1, k2))))).getD x 0 =
      (getV e x + get_kk (7, x, k1, k2)) % 256
    rw [getD_set_self _ _ _ (by omega), hwrap]
    rfl
  · intro hne
    show (e.v_registers.set x (wrap8 (getV e x + wrap8 (get_kk (7, x, k1, k2))))).getD 15 0 =
      e.v_registers.getD 15 0
    rw [List.getD_eq_getElem?_getD, List.getD_eq_getElem?_getD, List.getElem?_set,
      if_neg hne]

/-- Witness for C7 (amended): `7005` on the all-zero machine stores 5 into
V0 and leaves the flag register at 0. -/
theorem add_immediate_wrapping_witness :
    (execute_op_code 0 initial_emulator (7, 0, 0, 5)).map
      (fun e1 => (getV e1 0, getV e1 0xF)) = some (5, 0) := by
  obtain ⟨e', he, h1, h2⟩ := add_immediate_wrapping 0 0 0 5 initial_emulator
    (by norm_num) (by norm_num) (by norm_num) (by decide)
  rw [he]
  have hv : getV e' 0 = 5 := by
    rw [h1]
    decide
  have hf : getV e' 0xF = 0 := by
    rw [h2 (by norm_num)]
    decide
  simp [hv, hf]

theorem writeRam_none (e : Emulator) (i v : Nat) (h : e.ram.length ≤ i) :
    writeRam e i v = none := by
  unfold writeRam
  rw [List.get?_eq_none.mpr h]

theorem writeRam_lt (e : Emulator) (i v : Nat) (e2 : Emulator)
    (h : writeRam e i v = some e2) : i < e.ram.length := by
  unfold writeRam at h
  cases hg : e.ram.get? i with
  | none => rw [hg] at h; exact Option.noConfusion h
  | some u =>
    obtain ⟨hlt, -⟩ := List.get?_eq_some.mp hg
    exact hlt

theorem bcd_write_none (e : Emulator) (vx : Nat) (h : e.ram.length ≤ e.i_register + 2) :
    bcd_write e vx = none := by
  unfold bcd_write
  simp only []
  rcases h1 : writeRam e e.i_register (vx / 100) with _ | e2
  · rfl
  · simp only []
    have hlen2 : e2.ram.length = e.ram.length :=
      (writeRam_fields _ _ _ _ h1).2.2.2.2.2.2.2.2
    rcases h2 : writeRam e2 (e.i_register + 1) (vx / 10 % 10) with _ | e3
    · rfl
    · simp only []
      have hlen3 : e3.ram.length = e.ram.length := by
        rw [(writeRam_fields _ _ _ _ h2).2.2.2.2.2.2.2.2, hlen2]
      exact writeRam_none _ _ _ (by omega)

theorem store_loop_none (base : Nat) (l : List Nat) (e : Emulator)
    (hmem : ∃ i ∈ l, e.ram.length ≤ i + base) :
    store_loop base l e = none := by
  induction l generalizing e with
  | nil =>
    obtain ⟨i, hi, -⟩ := hmem
    cases hi
  | cons j rest ih =>
    unfold store_loop
    rcases hw : writeRam e (j + base) (getV e j) with _ | e2
    · rfl
    · simp only []
      obtain ⟨i, hi, hge⟩ := hmem
      rcases List.mem_cons.mp hi with rfl | hmem2
      · exact absurd (writeRam_lt _ _ _ _ hw) (by omega)
      · refine ih e2 ⟨i, hmem2, ?_⟩
        rw [(writeRam_fields _ _ _ _ hw).2.2.2.2.2.2.2.2]
        exact hge

theorem load_loop_none (base : Nat) (l : List Nat) (e : Emulator)
    (hmem : ∃ i ∈ l, e.ram.length ≤ i + base) :
    load_loop base l e = none := by
  induction l generalizing e with
  | nil =>
    obtain ⟨i, hi, -⟩ := hmem
    cases hi
  | cons j rest ih =>
    unfold load_loop
    rcases hg : e.ram.get? (j + base) with _ | v
    · rfl
    · simp only []
      obtain ⟨i, hi, hge⟩ := hmem
      rcases List.mem_cons.mp hi with rfl | hmem2
      · obtain ⟨hlt, -⟩ := List.get?_eq_some.mp hg
        omega
      · refine ih (setV e j v) ⟨i, hmem2, ?_⟩
        show e.ram.length ≤ i + base
        exact hge

/-- Counterexample to C8 as stated: the digit-decomposition `F033` with
the address register at 4096 (all three target cells outside [0, 4096))
produces no `AddressOutOfRange` error value — the access is an unchecked
out-of-bounds panic, modelled as `none`. -/
theorem mem_oob_counterexample :
    execute_op_code 0 { initial_emulator with i_register := 4096 } (0xF, 0, 3, 3) = none := by
  show bcd_write { initial_emulator with i_register := 4096 }
    (getV { initial_emulator with i_register := 4096 } 0) = none
  refine bcd_write_none _ _ ?_
  show ({ initial_emulator with i_register := 4096 } : Emulator).ram.length ≤ 4096 + 2
  norm_num [initial_emulator, RAM_SIZE]

/-- C8 amended: every memory access of the digit decomposition `FX33`
(cells I, I+1, I+2) and of the bulk register store/load `FX55`/`FX65`
(cells I through I+x) that would touch an address outside [0, 4096) makes
the instruction fail as an unchecked fault — an out-of-bounds index panic,
modelled as `none` — rather than return an `AddressOutOfRange` error
value. -/
theorem mem_oob_fault (rng x : Nat) (e : Emulator) (hram : e.ram.length = 4096) :
    (4096 ≤ e.i_register + 2 → execute_op_code rng e (0xF, x, 3, 3) = none) ∧
    (4096 ≤ e.i_register + x → execute_op_code rng e (0xF, x, 5, 5) = none) ∧
    (4096 ≤ e.i_register + x → execute_op_code rng e (0xF, x, 6, 5) = none) := by
  refine ⟨fun h => ?_, fun h => ?_, fun h => ?_⟩
  · exact bcd_write_none e (getV e x) (by omega)
  · exact store_loop_none e.i_register _ e ⟨x, List.mem_range.mpr (Nat.lt_succ_self x), by omega⟩
  · exact load_loop_none e.i_register _ e ⟨x, List.mem_range.mpr (Nat.lt_succ_self x), by omega⟩

/-- Witness for C8 (amended) at a concrete state: address register 4094,
so `F233` touches 4096 and `F255`/`F265` touch 4094..4096. -/
theorem mem_oob_fault_witness :
    execute_op_code 0 { initial_emulator with i_register := 4094 } (0xF, 2, 3, 3) = none ∧
    execute_op_code 0 { initial_emulator with i_register := 4094 } (0xF, 2, 5, 5) = none ∧
    execute_op_code 0 { initial_emulator with i_register := 4094 } (0xF, 2, 6, 5) = none := by
  have h := mem_oob_fault 0 2 { initial_emulator with i_register := 4094 }
    (by norm_num [initial_emulator, RAM_SIZE])
  exact ⟨h.1 (by decide), h.2.1 (by decide), h.2.2 (by decide)⟩

/-- C1, the code evaluated at the failing input: `8015` (SUB V0 - V1) with
V0 = 5, V1 = 3 and flag register 0.  The minuend is ≥ the subtrahend, so
the claim requires flag = 1 (no borrow); the code stores the difference 2
but leaves the flag register at 0 — it sets the flag only when a borrow
occurs and never clears it. -/
theorem sub_no_borrow_flag_not_set :
    (execute_op_code 0 (setV (setV initial_emulator 0 5) 1 3) (8, 0, 1, 5)).map
      (fun e2 => (getV e2 0, getV e2 0xF)) = some (2, 0) := by decide

/-- C2, the code evaluated at the failing input: `8014` (ADD V0 + V1) with
V0 = 1, V1 = 2 and flag register previously 1.  The sum 3 does not
overflow, so the claim requires the flag to be written to 0; the code
stores 3 but leaves the flag register at 1 — the flag is written only on
overflow. -/
theorem add_no_overflow_flag_not_cleared :
    (execute_op_code 0 (setV (setV (setV initial_emulator 0 1) 1 2) 0xF 1) (8, 0, 1, 4)).map
      (fun e2 => (getV e2 0, getV e2 0xF)) = some (3, 1) := by decide

/-- C3, the code evaluated at the failing input: `800E` (SHL V0) with
V0 = 0x80.  The claim requires flag = (0x80 >> 7) & 1 = 1; the code masks
the shifted-out bit as (0x80 >> 7) & 0xF0 = 0, so the flag register reads
0 (the stored result (0x80 << 1) mod 256 = 0 is as specified). -/
theorem shl_flag_masked_to_zero :
    (execute_op_code 0 (setV initial_emulator 0 128) (8, 0, 0, 0xE)).map
      (fun e2 => (getV e2 0, getV e2 0xF)) = some (0, 0) := by decide
